import Mathlib

/-!
Verification of the Pricewise pricing-workflow core (src/app.py).

The four pipeline stages (Cost Calculator, Market Analyzer, Strategy
Modeler, Optimization Simulator) are embedded shallowly.  Python floats
are modelled as rationals (`ℚ`); Python's `round` builtin (round half to
even) is modelled by `pyRound`; fallible parsing is `Option`.
-/

namespace Pricewise

/-! ## Shared numeric coercion (`to_float`, src/app.py lines 14-18)

Python's `float(value)` raises `TypeError` on `None` and `ValueError` on a
non-numeric string; `to_float` catches both and returns `0.0`.  We model
the (sign, digits, optional decimal point) fragment of `float`'s string
grammar, with surrounding whitespace stripped as `float` does. -/

/-- Value of a digit string, most significant first (callers guarantee all
characters are digits). -/
def digitsVal (cs : List Char) : ℕ :=
  cs.foldl (fun a c => a * 10 + (c.toNat - 48)) 0

/-- An unsigned decimal literal: digits with at most one point and at least
one digit overall, e.g. "12", "12.", ".5", "12.5". -/
def parseUnsignedFloat (cs : List Char) : Option ℚ :=
  match cs.splitOn '.' with
  | [ip] =>
      if ip ≠ [] ∧ ip.all Char.isDigit then some (digitsVal ip) else none
  | [ip, fp] =>
      if (ip ≠ [] ∨ fp ≠ []) ∧ ip.all Char.isDigit ∧ fp.all Char.isDigit then
        some ((digitsVal ip : ℚ) + (digitsVal fp : ℚ) / (10 : ℚ) ^ fp.length)
      else none
  | _ => none

/-- A signed decimal literal. -/
def parseFloatChars : List Char → Option ℚ
  | '-' :: rest => (parseUnsignedFloat rest).map (fun q => -q)
  | '+' :: rest => parseUnsignedFloat rest
  | cs => parseUnsignedFloat cs

/-- Surrounding whitespace, which `float` ignores, stripped from a
character list. -/
def stripChars (cs : List Char) : List Char :=
  ((cs.dropWhile Char.isWhitespace).reverse.dropWhile Char.isWhitespace).reverse

/-- Python `float(s)` on a string, restricted to plain decimal literals:
`none` models a raised `ValueError`. -/
def pyFloat (s : String) : Option ℚ :=
  parseFloatChars (stripChars s.data)

/-- `to_float` from src/app.py: coerce a form value (absent = `none`) to a
number, defaulting to `0.0` when `float` would raise. -/
def to_float : Option String → ℚ
  | none => 0
  | some s => (pyFloat s).getD 0

/-! ## Module 1: Cost Calculator (src/app.py lines 21-50) -/

/-- The seven numeric form inputs of Module 1, after `to_float` coercion. -/
structure CostInputs where
  cost_materials : ℚ
  labor_hours : ℚ
  labor_rate : ℚ
  packaging_cost : ℚ
  shipping_cost : ℚ
  monthly_overhead : ℚ
  monthly_production_volume : ℚ

/-- The three values Module 1 hands to Module 2. -/
structure CostOutputs where
  loaded_cost : ℚ
  cogs : ℚ
  overhead : ℚ

/-- The volume actually used as divisor: the code replaces an exactly-zero
volume with 1 (`if monthly_production_volume == 0: monthly_production_volume
= 1`) and uses every other value unchanged. -/
def overheadDivisor (i : CostInputs) : ℚ :=
  if i.monthly_production_volume = 0 then 1 else i.monthly_production_volume

/-- `direct_labor_cost = labor_hours * labor_rate`. -/
def directLaborCost (i : CostInputs) : ℚ :=
  i.labor_hours * i.labor_rate

/-- `cogs_per_unit = cost_materials + direct_labor_cost + packaging_cost +
shipping_cost`. -/
def cogsPerUnit (i : CostInputs) : ℚ :=
  i.cost_materials + directLaborCost i + i.packaging_cost + i.shipping_cost

/-- `overhead_per_unit = monthly_overhead / monthly_production_volume`
(after the zero-volume replacement). -/
def overheadPerUnit (i : CostInputs) : ℚ :=
  i.monthly_overhead / overheadDivisor i

/-- `fully_loaded_cost = cogs_per_unit + overhead_per_unit`. -/
def fullyLoadedCost (i : CostInputs) : ℚ :=
  cogsPerUnit i + overheadPerUnit i

/-- Module 1's computation: the three values passed to Module 2 via the
redirect (src/app.py lines 45-48). -/
def module1_cost_calculator (i : CostInputs) : CostOutputs :=
  { loaded_cost := fullyLoadedCost i
    cogs := cogsPerUnit i
    overhead := i.monthly_overhead }

/-! ## Module 2: Market Analyzer (src/app.py lines 53-77) -/

/-- One competitor: a name and a (coerced) price. -/
structure CompetitorEntry where
  name : String
  price : ℚ
deriving DecidableEq

/-- Module 2's output: the three carried cost values plus the collected
competitor set. -/
structure Module2Output where
  loaded_cost : ℚ
  cogs : ℚ
  overhead : ℚ
  competitors : List CompetitorEntry
deriving DecidableEq

/-- The three form slots (src/app.py lines 64-68): for each `i` in 1..3 the
raw `comp_name_i` (absent = `none`) and raw `comp_price_i` values.  A slot
is kept when `name and price > 0` holds in Python: the name is present and
non-empty (Python truthiness of a string) and the coerced price is
positive. -/
def keepSlot : Option String × Option String → Option CompetitorEntry
  | (none, _) => none
  | (some nm, pv) =>
      let price := to_float pv
      if nm ≠ "" ∧ 0 < price then some { name := nm, price := price }
      else none

/-- The loop of src/app.py lines 63-68 over the (at most three) slots. -/
def collectCompetitors (slots : List (Option String × Option String)) :
    List CompetitorEntry :=
  slots.filterMap keepSlot

/-- Module 2: re-emit the three cost values received from Module 1 and
attach the collected competitor set (src/app.py lines 72-76). -/
def module2_market_analyzer (loaded_cost cogs overhead : ℚ)
    (slots : List (Option String × Option String)) : Module2Output :=
  { loaded_cost := loaded_cost
    cogs := cogs
    overhead := overhead
    competitors := collectCompetitors slots }

/-! ## Module 3: Strategy Modeler (src/app.py lines 80-144) -/

/-- Python's builtin `round` on an exact value: round to the nearest
integer, ties to the even neighbour. -/
def pyRound (q : ℚ) : ℤ :=
  let f := ⌊q⌋
  let r := q - f
  if r < 1 / 2 then f
  else if 1 / 2 < r then f + 1
  else if f % 2 = 0 then f else f + 1

/-- `get_breakeven` (src/app.py lines 108-112): `none` models the `'N/A'`
sentinel returned when `profit_per_unit <= 0`. -/
def get_breakeven (cogs monthly_overhead price : ℚ) : Option ℤ :=
  let profit_per_unit := price - cogs
  if profit_per_unit ≤ 0 then none
  else some (pyRound (monthly_overhead / profit_per_unit))

/-- One pricing strategy row as rendered by Module 3. -/
structure Strategy where
  name : String
  price : ℚ
  profit_per_unit : ℚ
  breakeven_units : Option ℤ
deriving DecidableEq

/-- `market_avg_price = sum(comp_prices) / len(comp_prices) if comp_prices
else 0` (src/app.py line 96). -/
def marketAvgPrice (comp_prices : List ℚ) : ℚ :=
  if comp_prices = [] then 0 else comp_prices.sum / (comp_prices.length : ℚ)

/-- Module 3 (src/app.py lines 80-144): coerced `comp_price_i` query
arguments come in as `comp_price_args`; the positive ones form
`comp_prices` (lines 88-92), then the strategy list is built. -/
def module3_strategy_modeler (fully_loaded_cost cogs monthly_overhead : ℚ)
    (comp_price_args : List ℚ) : List Strategy :=
  let comp_prices := comp_price_args.filter (fun p => decide (0 < p))
  let market_avg_price := marketAvgPrice comp_prices
  let desired_margin : ℚ := 40 / 100
  let cost_plus_price := fully_loaded_cost * (1 + desired_margin)
  let penetration_price :=
    if 0 < market_avg_price then market_avg_price * (90 / 100) else 0
  let premium_price :=
    if 0 < market_avg_price then market_avg_price * (125 / 100) else 0
  let base : List Strategy :=
    [{ name := "Cost-Plus (40%)"
       price := cost_plus_price
       profit_per_unit := cost_plus_price - fully_loaded_cost
       breakeven_units := get_breakeven cogs monthly_overhead cost_plus_price }]
  if 0 < market_avg_price then
    base ++
      [{ name := "Market Average"
         price := market_avg_price
         profit_per_unit := market_avg_price - fully_loaded_cost
         breakeven_units := get_breakeven cogs monthly_overhead market_avg_price },
       { name := "Penetration (10% Below Avg)"
         price := penetration_price
         profit_per_unit := penetration_price - fully_loaded_cost
         breakeven_units := get_breakeven cogs monthly_overhead penetration_price },
       { name := "Premium (25% Above Avg)"
         price := premium_price
         profit_per_unit := premium_price - fully_loaded_cost
         breakeven_units := get_breakeven cogs monthly_overhead premium_price }]
  else base

/-! ## Module 4: Optimization Simulator (src/app.py lines 147-184) -/

/-- The five numeric form inputs of Module 4, after `to_float` coercion. -/
structure SimInputs where
  original_cogs : ℚ
  original_price : ℚ
  new_cogs : ℚ
  new_price : ℚ
  projected_volume : ℚ
deriving DecidableEq

/-- The result record built on a POST (src/app.py lines 170-174): exactly
these three fields, no original total profit. -/
structure SimResults where
  original_profit_per_unit : ℚ
  new_profit_per_unit : ℚ
  new_total_profit : ℚ
deriving DecidableEq

/-- The projected volume actually used: an exactly-zero value is replaced
by 1 (src/app.py lines 159-160). -/
def flooredVolume (v : ℚ) : ℚ :=
  if v = 0 then 1 else v

/-- Module 4: on a submitting (POST) invocation build the result record,
otherwise `results = None` (src/app.py lines 150-174). -/
def module4_optimization_simulator (isPost : Bool) (i : SimInputs) :
    Option SimResults :=
  if isPost then
    let projected_volume := flooredVolume i.projected_volume
    let original_profit_per_unit := i.original_price - i.original_cogs
    let new_profit_per_unit := i.new_price - i.new_cogs
    let new_total_profit := new_profit_per_unit * projected_volume
    some { original_profit_per_unit := original_profit_per_unit
           new_profit_per_unit := new_profit_per_unit
           new_total_profit := new_total_profit }
  else none

/-! ## Theorems -/

/-- C2: a strategy price's `breakevenUnits` is the not-achievable sentinel
(`none`, i.e. `'N/A'`) iff `price ≤ cogsPerUnit`; otherwise it is
`round(monthlyOverhead / (price − cogsPerUnit))`. -/
theorem breakeven_units_spec (cogs monthly_overhead price : ℚ) :
    (get_breakeven cogs monthly_overhead price = none ↔ price ≤ cogs) ∧
    (cogs < price →
      get_breakeven cogs monthly_overhead price =
        some (pyRound (monthly_overhead / (price - cogs)))) := by
  constructor
  · constructor
    · intro h
      by_contra hle
      have hpos : ¬ (price - cogs ≤ 0) := by
        push_neg at hle ⊢
        linarith
      simp [get_breakeven, hpos] at h
    · intro h
      have hnp : price - cogs ≤ 0 := by linarith
      simp [get_breakeven, hnp]
  · intro h
    have hpos : ¬ (price - cogs ≤ 0) := by linarith
    simp [get_breakeven, hpos]

/-- Witness for C2 at the spec's worked example (cogs 45, overhead 5000,
price 70). -/
theorem breakeven_units_spec_witness :
    get_breakeven 45 5000 70 = some (pyRound (5000 / (70 - 45))) :=
  (breakeven_units_spec 45 5000 70).2 (by norm_num)

/-- C3: with all seven inputs non-negative, the Cost Calculator's outputs
satisfy `fullyLoadedCost ≥ cogsPerUnit ≥ directLaborCost ≥ 0`. -/
theorem cost_calculator_ordered (i : CostInputs)
    (hm : 0 ≤ i.cost_materials) (hh : 0 ≤ i.labor_hours)
    (hr : 0 ≤ i.labor_rate) (hp : 0 ≤ i.packaging_cost)
    (hs : 0 ≤ i.shipping_cost) (ho : 0 ≤ i.monthly_overhead)
    (hv : 0 ≤ i.monthly_production_volume) :
    0 ≤ directLaborCost i ∧
      directLaborCost i ≤ (module1_cost_calculator i).cogs ∧
      (module1_cost_calculator i).cogs ≤ (module1_cost_calculator i).loaded_cost := by
  have hdl : 0 ≤ directLaborCost i := mul_nonneg hh hr
  have hdiv : 0 < overheadDivisor i := by
    unfold overheadDivisor
    split
    · norm_num
    · exact lt_of_le_of_ne hv (Ne.symm (by assumption))
  have hov : 0 ≤ overheadPerUnit i := div_nonneg ho hdiv.le
  refine ⟨hdl, ?_, ?_⟩
  · show directLaborCost i ≤ cogsPerUnit i
    unfold cogsPerUnit
    linarith
  · show cogsPerUnit i ≤ fullyLoadedCost i
    unfold fullyLoadedCost
    linarith

/-- Witness for C3 at the spec's worked example inputs. -/
theorem cost_calculator_ordered_witness :
    0 ≤ directLaborCost ⟨10, 2, 15, 2, 3, 5000, 1000⟩ ∧
      directLaborCost ⟨10, 2, 15, 2, 3, 5000, 1000⟩ ≤
        (module1_cost_calculator ⟨10, 2, 15, 2, 3, 5000, 1000⟩).cogs ∧
      (module1_cost_calculator ⟨10, 2, 15, 2, 3, 5000, 1000⟩).cogs ≤
        (module1_cost_calculator ⟨10, 2, 15, 2, 3, 5000, 1000⟩).loaded_cost :=
  cost_calculator_ordered ⟨10, 2, 15, 2, 3, 5000, 1000⟩ (by norm_num)
    (by norm_num) (by norm_num) (by norm_num) (by norm_num) (by norm_num)
    (by norm_num)

/-- C4 counterexample: the claim says the divisor used for
`overheadPerUnit` is at least 1 for every input volume, but the code only
replaces an exactly-zero volume with 1: with volume `0.5` the divisor is
`0.5 < 1` (and overhead 100 yields `overheadPerUnit = 200`). -/
theorem volume_divisor_below_one :
    overheadDivisor ⟨0, 0, 0, 0, 0, 100, 1 / 2⟩ < 1 ∧
      overheadPerUnit ⟨0, 0, 0, 0, 0, 100, 1 / 2⟩ = 200 := by
  constructor <;> norm_num [overheadDivisor, overheadPerUnit]

/-- C4 amended: the divisor used for `overheadPerUnit` is never zero — it
is 1 when the input volume is exactly 0 and is the input volume itself
otherwise (so it can be below 1, e.g. fractional or negative). -/
theorem volume_divisor_never_zero (i : CostInputs) :
    overheadDivisor i ≠ 0 ∧
      (i.monthly_production_volume = 0 → overheadDivisor i = 1) ∧
      (i.monthly_production_volume ≠ 0 →
        overheadDivisor i = i.monthly_production_volume) := by
  unfold overheadDivisor
  by_cases h : i.monthly_production_volume = 0 <;> simp [h]

/-- Witness for C4's amended claim at volume 0. -/
theorem volume_divisor_never_zero_witness :
    overheadDivisor ⟨0, 0, 0, 0, 0, 100, 0⟩ = 1 :=
  (volume_divisor_never_zero ⟨0, 0, 0, 0, 0, 100, 0⟩).2.1 rfl

/-- C5: a submitting (POST) run of the Optimization Simulator produces
exactly the record
(`originalPrice − originalCogs`, `newPrice − newCogs`,
`newProfitPerUnit * projectedVolume` with the zero-floored volume) — in
particular no original total profit exists in the record — and a
non-submitting run produces no record at all. -/
theorem simulator_result_record (i : SimInputs) :
    module4_optimization_simulator true i =
      some { original_profit_per_unit := i.original_price - i.original_cogs
             new_profit_per_unit := i.new_price - i.new_cogs
             new_total_profit :=
               (i.new_price - i.new_cogs) * flooredVolume i.projected_volume } ∧
      module4_optimization_simulator false i = none :=
  ⟨rfl, rfl⟩

/-- C8: two Optimization Simulator runs differing only in
`projectedVolume` 0 vs 1 produce identical results. -/
theorem simulator_volume_zero_eq_one (isPost : Bool) (oc op nc np : ℚ) :
    module4_optimization_simulator isPost ⟨oc, op, nc, np, 0⟩ =
      module4_optimization_simulator isPost ⟨oc, op, nc, np, 1⟩ := by
  cases isPost <;> norm_num [module4_optimization_simulator, flooredVolume]

/-- C9: the Market Analyzer re-emits the three carried cost values it
received from the Cost Calculator unchanged, whatever the competitor
slots contain. -/
theorem market_analyzer_passthrough (loaded_cost cogs overhead : ℚ)
    (slots : List (Option String × Option String)) :
    (module2_market_analyzer loaded_cost cogs overhead slots).loaded_cost =
        loaded_cost ∧
      (module2_market_analyzer loaded_cost cogs overhead slots).cogs = cogs ∧
      (module2_market_analyzer loaded_cost cogs overhead slots).overhead =
        overhead :=
  ⟨rfl, rfl, rfl⟩

/-- C10: the breakeven rounding rule is round-half-to-even: when
`monthlyOverhead / (price − cogsPerUnit)` is exactly halfway between the
consecutive integers `n` and `n + 1`, the breakeven is the even one of the
two. -/
theorem breakeven_round_half_to_even (cogs monthly_overhead price : ℚ)
    (n : ℤ) (hlt : cogs < price)
    (hhalf : monthly_overhead / (price - cogs) = (n : ℚ) + 1 / 2) :
    ∃ b : ℤ, get_breakeven cogs monthly_overhead price = some b ∧
      b % 2 = 0 ∧ (b = n ∨ b = n + 1) := by
  have hpos : ¬ (price - cogs ≤ 0) := by linarith
  have hfloor : ⌊(n : ℚ) + 1 / 2⌋ = n := by
    rw [add_comm, Int.floor_add_int]
    norm_num
  have hround : pyRound ((n : ℚ) + 1 / 2) = if n % 2 = 0 then n else n + 1 := by
    simp only [pyRound, hfloor]
    have hsub : ((n : ℚ) + 1 / 2) - (n : ℚ) = 1 / 2 := by ring
    rw [hsub]
    norm_num
  refine ⟨if n % 2 = 0 then n else n + 1, ?_, ?_, ?_⟩
  · simp only [get_breakeven, if_neg hpos, hhalf, hround]
  · by_cases hn : n % 2 = 0
    · simp [hn]
    · simp only [if_neg hn]
      omega
  · by_cases hn : n % 2 = 0
    · simp [hn]
    · simp [hn]

/-- Witness for C10: `5 / (2 − 0) = 2.5` rounds down to the even
neighbour 2. -/
theorem breakeven_round_half_to_even_witness :
    ∃ b : ℤ, get_breakeven 0 5 2 = some b ∧ b % 2 = 0 ∧ (b = 2 ∨ b = 3) :=
  breakeven_round_half_to_even 0 5 2 2 (by norm_num) (by norm_num)

/-- C7: the shared coercion `to_float` is a total function into the
numbers (no exception is modelled): an absent value yields `0.0`, a
string `float` cannot parse yields `0.0`, and a parseable string yields
its parsed value. -/
theorem to_float_total_default (v : Option String) :
    (v = none → to_float v = 0) ∧
      (∀ s, v = some s → pyFloat s = none → to_float v = 0) ∧
      (∀ s q, v = some s → pyFloat s = some q → to_float v = q) := by
  refine ⟨?_, ?_, ?_⟩
  · rintro rfl
    rfl
  · rintro s rfl h
    simp [to_float, h]
  · rintro s q rfl h
    simp [to_float, h]

/-- Witness for C7: a numeric string, a non-numeric string and an absent
value. -/
theorem to_float_total_default_witness :
    to_float (some "25") = 25 ∧ to_float (some "n/a") = 0 ∧
      to_float none = 0 :=
  ⟨(to_float_total_default (some "25")).2.2 "25" 25 rfl
      (by rw [show (25 : ℚ) = ((25 : ℕ) : ℚ) by norm_num]; rfl),
   (to_float_total_default (some "n/a")).2.1 "n/a" rfl (by decide),
   (to_float_total_default none).1 rfl⟩

/-- C1: with no surviving competitor price the Strategy Modeler yields the
single Cost-Plus strategy at `fullyLoadedCost * 1.40`; with at least one
it yields exactly the four strategies
[Cost-Plus, Market Average, Penetration, Premium] at prices
`fullyLoadedCost * 1.40`, `avg`, `avg * 0.90`, `avg * 1.25` where `avg`
is the mean of the competitor prices. -/
theorem strategy_modeler_shape (fully_loaded_cost cogs monthly_overhead : ℚ)
    (comp_price_args : List ℚ) :
    (comp_price_args.filter (fun p => decide (0 < p)) = [] →
      module3_strategy_modeler fully_loaded_cost cogs monthly_overhead
          comp_price_args =
        [{ name := "Cost-Plus (40%)"
           price := fully_loaded_cost * (14 / 10)
           profit_per_unit := fully_loaded_cost * (14 / 10) - fully_loaded_cost
           breakeven_units :=
             get_breakeven cogs monthly_overhead
               (fully_loaded_cost * (14 / 10)) }]) ∧
    (comp_price_args.filter (fun p => decide (0 < p)) ≠ [] →
      (module3_strategy_modeler fully_loaded_cost cogs monthly_overhead
          comp_price_args).map Strategy.name =
        ["Cost-Plus (40%)", "Market Average", "Penetration (10% Below Avg)",
         "Premium (25% Above Avg)"] ∧
      (module3_strategy_modeler fully_loaded_cost cogs monthly_overhead
          comp_price_args).map Strategy.price =
        [fully_loaded_cost * (14 / 10),
         marketAvgPrice (comp_price_args.filter (fun p => decide (0 < p))),
         marketAvgPrice (comp_price_args.filter (fun p => decide (0 < p))) *
           (90 / 100),
         marketAvgPrice (comp_price_args.filter (fun p => decide (0 < p))) *
           (125 / 100)]) := by
  have harg : fully_loaded_cost * (1 + (40 : ℚ) / 100) =
      fully_loaded_cost * (14 / 10) := by ring
  set fp := comp_price_args.filter (fun p => decide (0 < p)) with hfp
  constructor
  · intro h
    have havg : marketAvgPrice fp = 0 := by
      rw [h, marketAvgPrice, if_pos rfl]
    simp only [module3_strategy_modeler, ← hfp, havg, lt_irrefl, if_false,
      harg]
  · intro h
    have hmem : ∀ p ∈ fp, 0 < p := by
      intro p hpmem
      have := List.of_mem_filter hpmem
      simpa using this
    have hsum : 0 < fp.sum := List.sum_pos fp hmem h
    have hlen : 0 < (fp.length : ℚ) := by
      exact_mod_cast List.length_pos.mpr h
    have h0 : 0 < marketAvgPrice fp := by
      rw [marketAvgPrice, if_neg h]
      exact div_pos hsum hlen
    constructor
    · simp only [module3_strategy_modeler, ← hfp, if_pos h0, List.map]
    · simp only [module3_strategy_modeler, ← hfp, if_pos h0, List.map, harg]

/-- Witness for C1 at the spec's worked example: competitor prices
[55, 60, 65]. -/
theorem strategy_modeler_shape_witness :
    (module3_strategy_modeler 50 45 5000 [55, 60, 65]).map Strategy.name =
      ["Cost-Plus (40%)", "Market Average", "Penetration (10% Below Avg)",
       "Premium (25% Above Avg)"] ∧
    (module3_strategy_modeler 50 45 5000 [55, 60, 65]).map Strategy.price =
      [50 * (14 / 10),
       marketAvgPrice ([(55 : ℚ), 60, 65].filter (fun p => decide (0 < p))),
       marketAvgPrice ([(55 : ℚ), 60, 65].filter (fun p => decide (0 < p))) *
         (90 / 100),
       marketAvgPrice ([(55 : ℚ), 60, 65].filter (fun p => decide (0 < p))) *
         (125 / 100)] :=
  (strategy_modeler_shape 50 45 5000 [55, 60, 65]).2 (by decide)

/-- A `filterMap` by a function that keeps fewer elements is a sublist of
a `filterMap` that agrees on every kept element. -/
theorem filterMap_sublist_of_forall {α β : Type} (f g : α → Option β)
    (hfg : ∀ a b, f a = some b → g a = some b) :
    ∀ l : List α, (l.filterMap f).Sublist (l.filterMap g)
  | [] => by simp
  | a :: l => by
    rw [List.filterMap_cons, List.filterMap_cons]
    cases hf : f a with
    | none =>
        cases hg : g a with
        | none => exact filterMap_sublist_of_forall f g hfg l
        | some b => exact (filterMap_sublist_of_forall f g hfg l).cons b
    | some b =>
        rw [hfg a b hf]
        exact (filterMap_sublist_of_forall f g hfg l).cons₂ b

/-- What a kept slot looks like: a present non-empty name, a positive
coerced price, and the entry built from exactly that slot. -/
theorem keepSlot_some {s : Option String × Option String}
    {e : CompetitorEntry} (h : keepSlot s = some e) :
    e.name ≠ "" ∧ 0 < e.price ∧ s.1 = some e.name ∧
      e.price = to_float s.2 := by
  obtain ⟨n1, p1⟩ := s
  cases n1 with
  | none => simp [keepSlot] at h
  | some nm =>
      simp only [keepSlot] at h
      split at h
      · cases h
        refine ⟨?_, ?_, rfl, rfl⟩
        · exact (by assumption : nm ≠ "" ∧ 0 < to_float p1).1
        · exact (by assumption : nm ≠ "" ∧ 0 < to_float p1).2
      · exact absurd h (by simp)

/-- C6: the Market Analyzer's competitor set drops every slot with an
absent or empty name or a non-positive price, holds at most as many
entries as slots (hence at most 3), and preserves input order: it is a
sublist of the per-slot entries in slot order. -/
theorem competitor_set_filtered (slots : List (Option String × Option String))
    (hlen : slots.length ≤ 3) :
    (collectCompetitors slots).length ≤ 3 ∧
      (∀ e ∈ collectCompetitors slots, e.name ≠ "" ∧ 0 < e.price) ∧
      (collectCompetitors slots).Sublist
        (slots.filterMap (fun s =>
          s.1.map (fun nm => { name := nm, price := to_float s.2 }))) := by
  refine ⟨?_, ?_, ?_⟩
  · exact le_trans (List.length_filterMap_le _ _) hlen
  · intro e he
    rw [collectCompetitors, List.mem_filterMap] at he
    obtain ⟨s, _, hs⟩ := he
    exact ⟨(keepSlot_some hs).1, (keepSlot_some hs).2.1⟩
  · apply filterMap_sublist_of_forall
    intro s e hf
    obtain ⟨-, -, hname, hprice⟩ := keepSlot_some hf
    cases e with
    | mk en ep =>
        have hep : ep = to_float s.2 := hprice
        have hn : s.1 = some en := hname
        subst hep
        rw [hn]
        rfl

/-- Witness for C6: three slots of which only the first survives. -/
theorem competitor_set_filtered_witness :
    (collectCompetitors
        [(some "A", some "55"), (none, some "60"), (some "", some "65")]).length ≤ 3 ∧
      (∀ e ∈ collectCompetitors
          [(some "A", some "55"), (none, some "60"), (some "", some "65")],
        e.name ≠ "" ∧ 0 < e.price) ∧
      (collectCompetitors
          [(some "A", some "55"), (none, some "60"), (some "", some "65")]).Sublist
        ([((some "A" : Option String), (some "55" : Option String)),
          (none, some "60"), (some "", some "65")].filterMap (fun s =>
          s.1.map (fun nm => { name := nm, price := to_float s.2 }))) :=
  competitor_set_filtered
    [(some "A", some "55"), (none, some "60"), (some "", some "65")]
    (by decide)

end Pricewise
